import Mathlib

/-!
Shallow embedding of `src/live_heatmap.py`, a serial-to-heatmap viewer.

The script has two phases (module-level code):
  * a wait loop (lines 13-19) that reads lines until one whose first
    comma-separated token is "CFG", then parses tokens 1 and 2 as the
    grid dimensions;
  * plot setup (lines 24-35): a zero placeholder matrix of that shape
    and a fixed colour scale `vmin=0, vmax=1023`;
  * a main loop (lines 38-51) that renders any line whose first token is
    "F" and whose token count is at least `2 + rows*cols`, by parsing
    tokens from index 2 on as integers, converting to int32 and
    reshaping row-major to a `rows x cols` matrix.

Lines are modelled as `List Char` (the text after `decode`), Python
exceptions as an explicit `Except` error, and the numpy int32 cast as a
wrap to the signed 32-bit range.
-/

deriving instance DecidableEq for Except

namespace LiveHeatmap

/-- Whitespace characters removed by Python `str.strip()`. -/
def isSpace (c : Char) : Bool :=
  c = ' ' || c = '\t' || c = '\n' || c = '\r' || c = '\x0b' || c = '\x0c'

/-- Python `str.strip()`: drop leading and trailing whitespace. -/
def pyStrip (cs : List Char) : List Char :=
  ((cs.dropWhile isSpace).reverse.dropWhile isSpace).reverse

/-- Helper for `pySplit`: `acc` is the current token, reversed. -/
def splitAux : List Char → List Char → List (List Char)
  | [], acc => [acc.reverse]
  | c :: cs, acc =>
      if c = ',' then acc.reverse :: splitAux cs [] else splitAux cs (c :: acc)

/-- Python `line.split(",")` (lines 15 and 43). On the empty string it
yields `[""]`, never the empty list. -/
def pySplit (cs : List Char) : List (List Char) := splitAux cs []

/-- Value of a nonempty all-digit character list; `none` otherwise. -/
def digitsVal? (cs : List Char) : Option Nat :=
  match cs with
  | [] => none
  | _ => cs.foldl
      (fun acc c => acc.bind
        (fun n => if c.isDigit then some (10 * n + (c.toNat - 48)) else none))
      (some 0)

/-- Python `int(s)`: optional surrounding whitespace, an optional sign,
then a nonempty digit run; `none` models the `ValueError` raised on
anything else. -/
def pyInt? (cs : List Char) : Option Int :=
  match pyStrip cs with
  | '-' :: rest => (digitsVal? rest).map (fun n => -(n : Int))
  | '+' :: rest => (digitsVal? rest).map (fun n => (n : Int))
  | other => (digitsVal? other).map (fun n => (n : Int))

/-- The Python exceptions this script can raise (uncaught). -/
inductive PyErr
  | valueError
  | indexError
deriving DecidableEq

/-- Python list indexing `l[i]`: `IndexError` when out of range. -/
def pyIdx (l : List (List Char)) (i : Nat) : Except PyErr (List Char) :=
  match l.get? i with
  | some x => .ok x
  | none => .error .indexError

/-- The numpy `dtype=np.int32` element cast (line 47): wrap the integer
into the signed 32-bit range. -/
def toInt32 (v : Int) : Int :=
  if v % 2 ^ 32 < 2 ^ 31 then v % 2 ^ 32 else v % 2 ^ 32 - 2 ^ 32

/-- `list(map(int, tokens))` (line 46): parse every token as a Python
int, raising `ValueError` at the first failure. -/
def parseInts : List (List Char) → Except PyErr (List Int)
  | [] => .ok []
  | t :: ts =>
      match pyInt? t with
      | none => .error .valueError
      | some v =>
          match parseInts ts with
          | .error e => .error e
          | .ok vs => .ok (v :: vs)

/-- `values.reshape((rows, cols))` (line 48): row-major reshape;
`ValueError` unless the length is exactly `rows * cols`. -/
def reshape (rows cols : Nat) (values : List Int) :
    Except PyErr (List (List Int)) :=
  if values.length = rows * cols then
    .ok ((List.range rows).map
      (fun i => (List.range cols).map (fun j => values.getD (i * cols + j) 0)))
  else .error .valueError

/-- One iteration of the CFG wait loop (lines 13-19): strip and split
the line; when `parts[0] == "CFG"`, parse `parts[1]` and `parts[2]` as
the row and column counts and stop waiting (`some (rows, cols)`);
otherwise keep waiting (`none`). Missing tokens raise `IndexError`,
non-integer tokens `ValueError`, exactly as the Python indexing and
`int()` calls do. -/
def waitStep (line : List Char) : Except PyErr (Option (Int × Int)) :=
  match pyIdx (pySplit (pyStrip line)) 0 with
  | .error e => .error e
  | .ok p0 =>
      if p0 = "CFG".toList then
        match pyIdx (pySplit (pyStrip line)) 1 with
        | .error e => .error e
        | .ok p1 =>
            match pyInt? p1 with
            | none => .error .valueError
            | some r =>
                match pyIdx (pySplit (pyStrip line)) 2 with
                | .error e => .error e
                | .ok p2 =>
                    match pyInt? p2 with
                    | none => .error .valueError
                    | some c => .ok (some (r, c))
      else .ok none

/-- The wait loop run over a finite list of input lines: consume lines
until one configures the grid; return the configuration and the
remaining lines, or `none` when the input ends while still waiting. -/
def waitRun : List (List Char) → Except PyErr (Option ((Int × Int) × List (List Char)))
  | [] => .ok none
  | l :: ls =>
      match waitStep l with
      | .error e => .error e
      | .ok (some rc) => .ok (some (rc, ls))
      | .ok none => waitRun ls

/-- Main-loop handling of an already split nonempty line (lines 45-48):
`ok none` means the line is ignored, `ok (some m)` means the frame is
accepted and rendered as the matrix `m`, `error` is an uncaught
exception. The guard is `parts[0] == "F" and len(parts) >= 2 + rows*cols`
and the samples are `parts[2:]`; the timestamp token `parts[1]` is never
touched. -/
def frameTokens (rows cols : Nat) (parts : List (List Char)) :
    Except PyErr (Option (List (List Int))) :=
  match pyIdx parts 0 with
  | .error e => .error e
  | .ok p0 =>
      if p0 = "F".toList ∧ 2 + rows * cols ≤ parts.length then
        match parseInts (parts.drop 2) with
        | .error e => .error e
        | .ok vs =>
            match reshape rows cols (vs.map toInt32) with
            | .error e => .error e
            | .ok frame => .ok (some frame)
      else .ok none

/-- One iteration of the main loop (lines 38-51) with current display
`d`: empty stripped lines are skipped, a rendered frame replaces the
display; the Bool records whether a redraw happened. -/
def mainStep (rows cols : Nat) (d : List (List Int)) (line : List Char) :
    Except PyErr (List (List Int) × Bool) :=
  if pyStrip line = [] then .ok (d, false)
  else
    match frameTokens rows cols (pySplit (pyStrip line)) with
    | .error e => .error e
    | .ok none => .ok (d, false)
    | .ok (some f) => .ok (f, true)

/-- The main loop run over a finite list of input lines, returning the
final display. -/
def mainRun (rows cols : Nat) (d : List (List Int)) :
    List (List Char) → Except PyErr (List (List Int))
  | [] => .ok d
  | l :: ls =>
      match mainStep rows cols d l with
      | .error e => .error e
      | .ok (d1, _) => mainRun rows cols d1 ls

/-- Whether the main loop accepts a line as a frame, and the rendered
matrix when it does (read off the same per-line computation as
`mainStep`; a line on which the loop would raise yields `none` here). -/
def acceptOf (rows cols : Nat) (l : List Char) : Option (List (List Int)) :=
  if pyStrip l = [] then none
  else
    match frameTokens rows cols (pySplit (pyStrip l)) with
    | .ok (some f) => some f
    | _ => none

/-- The frames the main loop accepts and renders from a line sequence,
in order. -/
def acceptedFrames (rows cols : Nat) (ls : List (List Char)) :
    List (List (List Int)) :=
  ls.filterMap (acceptOf rows cols)

/-- Display ceiling of the colour scale, line 27: `vmax = 1023`. -/
def vmax : Int := 1023

/-- Display floor of the colour scale, line 28: `vmin=0`. -/
def vmin : Int := 0

/-- The `np.zeros((rows, cols))` placeholder of line 25 (values start at
zero); numpy raises `ValueError` on a negative dimension. -/
def placeholder (rows cols : Int) : Except PyErr (List (List Int)) :=
  if 0 ≤ rows ∧ 0 ≤ cols then
    .ok ((List.range rows.toNat).map
      (fun _ => (List.range cols.toNat).map (fun _ => (0 : Int))))
  else .error .valueError

/-- Observable events of a program run: the one configuration print
(line 19) and each heatmap redraw (lines 50-51). -/
inductive Event
  | configured (rows cols : Int)
  | rendered (frame : List (List Int))
deriving DecidableEq

/-- Event trace of the main loop. -/
def mainTrace (rows cols : Nat) (d : List (List Int)) :
    List (List Char) → Except PyErr (List Event)
  | [] => .ok []
  | l :: ls =>
      match mainStep rows cols d l with
      | .error e => .error e
      | .ok (d1, b) =>
          match mainTrace rows cols d1 ls with
          | .error e => .error e
          | .ok evs => .ok (if b then Event.rendered d1 :: evs else evs)

/-- The whole script on a finite input: wait for a configuration, set up
the placeholder plot, then run the main loop; the result is the event
trace (empty when the input ends before any CFG line). -/
def programTrace (lines : List (List Char)) : Except PyErr (List Event) :=
  match waitRun lines with
  | .error e => .error e
  | .ok none => .ok []
  | .ok (some ((r, c), rest)) =>
      match placeholder r c with
      | .error e => .error e
      | .ok d0 =>
          match mainTrace r.toNat c.toNat d0 rest with
          | .error e => .error e
          | .ok evs => .ok (Event.configured r c :: evs)

/-- The whole script on a finite input, returning the final display
(`none` when the input ends before any CFG line). -/
def programDisplay (lines : List (List Char)) :
    Except PyErr (Option (List (List Int))) :=
  match waitRun lines with
  | .error e => .error e
  | .ok none => .ok none
  | .ok (some ((r, c), rest)) =>
      match placeholder r c with
      | .error e => .error e
      | .ok d0 =>
          match mainRun r.toNat c.toNat d0 rest with
          | .error e => .error e
          | .ok d => .ok (some d)

example : pySplit [] = [[]] := by decide
example : pySplit ("a,b".toList) = [['a'], ['b']] := by decide
example : pyInt? ("-12".toList) = some (-12) := by decide
example : pyInt? ("xyz".toList) = none := by decide
example : reshape 2 3 [1, 2, 3, 4, 5, 6] = .ok [[1, 2, 3], [4, 5, 6]] := by decide
example : reshape 2 3 [1, 2, 3, 4, 5, 6, 7] = .error .valueError := by decide

example :
    programDisplay ["CFG,2,3".toList, "F,100,1,2,3,4,5,6".toList] =
      .ok (some [[1, 2, 3], [4, 5, 6]]) := by decide

example :
    programDisplay ["CFG,2,3".toList, "F,100,1,2,3,4,5,6,7".toList] =
      .error .valueError := by decide

example :
    programTrace ["junk".toList, "F,1,2".toList, "CFG,2,3".toList,
        "F,100,1,2,3,4,5,6".toList] =
      .ok [Event.configured 2 3, Event.rendered [[1, 2, 3], [4, 5, 6]]] := by
  decide

example : waitStep ("CFG".toList) = .error .indexError := by decide
example : waitStep ("CFG,x,3".toList) = .error .valueError := by decide

example :
    programDisplay ["CFG,2,3".toList, "F,xyz,1,2,3,4,5,6".toList] =
      .ok (some [[1, 2, 3], [4, 5, 6]]) := by decide

/-! Helper lemmas about the embedded operations. -/

theorem splitAux_ne_nil (cs acc : List Char) : splitAux cs acc ≠ [] := by
  induction cs generalizing acc with
  | nil => simp [splitAux]
  | cons c cs ih =>
      simp only [splitAux]
      split
      · simp
      · exact ih _

theorem pySplit_ne_nil (cs : List Char) : pySplit cs ≠ [] :=
  splitAux_ne_nil cs []

theorem pyIdx_zero_of_ne_nil (l : List (List Char)) (h : l ≠ []) :
    pyIdx l 0 = .ok (l.headD []) := by
  cases l with
  | nil => exact absurd rfl h
  | cons a t => rfl

theorem toInt32_eq_self (v : Int) (h1 : -(2 ^ 31) ≤ v) (h2 : v < 2 ^ 31) :
    toInt32 v = v := by
  have e32 : (2 : Int) ^ 32 = 4294967296 := by norm_num
  have e31 : (2 : Int) ^ 31 = 2147483648 := by norm_num
  unfold toInt32
  rw [e32, e31]
  rw [e31] at h1 h2
  split <;> omega

theorem parseInts_length (ts : List (List Char)) (vs : List Int)
    (h : parseInts ts = .ok vs) : vs.length = ts.length := by
  induction ts generalizing vs with
  | nil =>
      unfold parseInts at h
      cases h
      rfl
  | cons t ts ih =>
      unfold parseInts at h
      split at h
      · cases h
      · split at h
        · cases h
        · cases h
          simpa using ih _ (by assumption)

theorem reshape_dims (rows cols : Nat) (values : List Int)
    (f : List (List Int)) (h : reshape rows cols values = .ok f) :
    values.length = rows * cols ∧ f.length = rows ∧
      ∀ row ∈ f, row.length = cols := by
  unfold reshape at h
  split at h
  · cases h
    refine ⟨by assumption, by simp, ?_⟩
    intro row hrow
    simp only [List.mem_map] at hrow
    obtain ⟨i, _, rfl⟩ := hrow
    simp
  · cases h

theorem index_lt (i j rows cols : Nat) (hi : i < rows) (hj : j < cols) :
    i * cols + j < rows * cols :=
  calc i * cols + j < i * cols + cols := by omega
    _ = (i + 1) * cols := by ring
    _ ≤ rows * cols := Nat.mul_le_mul_right cols hi

theorem reshape_entry (rows cols : Nat) (values : List Int)
    (f : List (List Int)) (h : reshape rows cols values = .ok f)
    (i j : Nat) (hi : i < rows) (hj : j < cols) :
    (f.getD i []).getD j 0 = values.getD (i * cols + j) 0 := by
  unfold reshape at h
  split at h
  · cases h
    simp [List.getD_eq_getElem?_getD, List.getElem?_map, List.getElem?_range, hi, hj]
  · cases h

theorem frameTokens_ignored (rows cols : Nat) (parts : List (List Char))
    (hne : parts ≠ [])
    (h : parts.headD [] ≠ "F".toList ∨ parts.length < 2 + rows * cols) :
    frameTokens rows cols parts = .ok none := by
  unfold frameTokens
  split
  · next e heq =>
      rw [pyIdx_zero_of_ne_nil parts hne] at heq
      cases heq
  · next p0 heq =>
      rw [pyIdx_zero_of_ne_nil parts hne] at heq
      cases heq
      rw [if_neg]
      rintro ⟨h1, h2⟩
      rcases h with h | h
      · exact h h1
      · omega

theorem frameTokens_accepts (rows cols : Nat) (parts : List (List Char))
    (vs : List Int)
    (hp : parts.headD [] = "F".toList)
    (hlen : parts.length = 2 + rows * cols)
    (hvs : parseInts (parts.drop 2) = .ok vs) :
    frameTokens rows cols parts =
      .ok (some ((List.range rows).map (fun i =>
        (List.range cols).map
          (fun j => (vs.map toInt32).getD (i * cols + j) 0)))) := by
  have hne : parts ≠ [] := by
    intro hnil
    rw [hnil] at hp
    exact absurd hp (by decide)
  have hlv : (vs.map toInt32).length = rows * cols := by
    rw [List.length_map, parseInts_length _ _ hvs, List.length_drop, hlen]
    omega
  have hre : reshape rows cols (vs.map toInt32) =
      .ok ((List.range rows).map (fun i =>
        (List.range cols).map
          (fun j => (vs.map toInt32).getD (i * cols + j) 0))) := by
    unfold reshape
    rw [if_pos hlv]
  unfold frameTokens
  split
  · next e heq =>
      rw [pyIdx_zero_of_ne_nil parts hne] at heq
      cases heq
  · next p0 heq =>
      rw [pyIdx_zero_of_ne_nil parts hne] at heq
      cases heq
      rw [if_pos ⟨hp, by omega⟩]
      simp [hvs, hre]

theorem frameTokens_some_inv (rows cols : Nat) (parts : List (List Char))
    (f : List (List Int)) (h : frameTokens rows cols parts = .ok (some f)) :
    parts.headD [] = "F".toList ∧ 2 + rows * cols ≤ parts.length ∧
      ∃ vs, parseInts (parts.drop 2) = .ok vs ∧
        reshape rows cols (vs.map toInt32) = .ok f := by
  unfold frameTokens at h
  split at h
  · cases h
  · next p0 heq =>
      have hne : parts ≠ [] := by
        intro hnil
        rw [hnil] at heq
        cases heq
      rw [pyIdx_zero_of_ne_nil parts hne] at heq
      cases heq
      split at h
      · next hcond =>
          split at h
          · cases h
          · next vs hvs =>
              split at h
              · cases h
              · next fr hfr =>
                  cases h
                  exact ⟨hcond.1, hcond.2, vs, hvs, hfr⟩
      · cases h

theorem waitStep_not_cfg (line : List Char)
    (h : (pySplit (pyStrip line)).headD [] ≠ "CFG".toList) :
    waitStep line = .ok none := by
  unfold waitStep
  split
  · next e heq =>
      rw [pyIdx_zero_of_ne_nil _ (pySplit_ne_nil _)] at heq
      cases heq
  · next p0 heq =>
      rw [pyIdx_zero_of_ne_nil _ (pySplit_ne_nil _)] at heq
      cases heq
      rw [if_neg h]

theorem mainStep_acceptOf (rows cols : Nat) (d : List (List Int))
    (l : List Char) (d1 : List (List Int)) (b : Bool)
    (h : mainStep rows cols d l = .ok (d1, b)) :
    (acceptOf rows cols l = none ∧ d1 = d ∧ b = false) ∨
      (acceptOf rows cols l = some d1 ∧ b = true) := by
  unfold mainStep at h
  unfold acceptOf
  split at h
  · next hs =>
      cases h
      left
      exact ⟨if_pos hs, rfl, rfl⟩
  · next hs =>
      rw [if_neg hs]
      split at h
      · cases h
      · next heq =>
          cases h
          rw [heq]
          exact Or.inl ⟨rfl, rfl, rfl⟩
      · next f heq =>
          cases h
          rw [heq]
          exact Or.inr ⟨rfl, rfl⟩

theorem acceptOf_mainStep (rows cols : Nat) (l : List Char)
    (f : List (List Int)) (h : acceptOf rows cols l = some f)
    (d : List (List Int)) : mainStep rows cols d l = .ok (f, true) := by
  unfold acceptOf at h
  unfold mainStep
  split at h
  · cases h
  · next hs =>
      rw [if_neg hs]
      split at h
      · next g heq =>
          cases h
          rw [heq]
      · next hne heq =>
          cases h

theorem mainRun_getLastD (rows cols : Nat) (ls : List (List Char)) :
    ∀ d d', mainRun rows cols d ls = .ok d' →
      d' = (acceptedFrames rows cols ls).getLastD d := by
  induction ls with
  | nil =>
      intro d d' h
      cases h
      rfl
  | cons l ls ih =>
      intro d d' h
      unfold mainRun at h
      split at h
      · cases h
      · next d1 b heq =>
          rcases mainStep_acceptOf _ _ _ _ _ _ heq with
            ⟨hnone, rfl, rfl⟩ | ⟨hsome, rfl⟩
          · rw [acceptedFrames, List.filterMap_cons, hnone]
            exact ih _ _ h
          · rw [acceptedFrames, List.filterMap_cons, hsome,
              List.getLastD_cons]
            exact ih _ _ h

theorem mainTrace_rendered (rows cols : Nat) (ls : List (List Char)) :
    ∀ d evs, mainTrace rows cols d ls = .ok evs →
      ∀ e ∈ evs, ∃ f, e = Event.rendered f := by
  induction ls with
  | nil =>
      intro d evs h e he
      cases h
      cases he
  | cons l ls ih =>
      intro d evs h e he
      unfold mainTrace at h
      split at h
      · cases h
      · next d1 b heq =>
          split at h
          · cases h
          · next evs' heq' =>
              cases h
              rcases b with _ | _
              · exact ih _ _ heq' e (by simpa using he)
              · simp only [if_true, List.mem_cons] at he
                rcases he with he | he
                · exact ⟨d1, he⟩
                · exact ih _ _ heq' e he

theorem programTrace_shape (lines : List (List Char)) (tr : List Event)
    (h : programTrace lines = .ok tr) :
    tr = [] ∨ ∃ r c evs, tr = Event.configured r c :: evs ∧
      ∀ e ∈ evs, ∃ f, e = Event.rendered f := by
  unfold programTrace at h
  split at h
  · cases h
  · cases h
    exact Or.inl rfl
  · next r c rest heq =>
      split at h
      · cases h
      · next d0 hd0 =>
          split at h
          · cases h
          · next evs hevs =>
              cases h
              exact Or.inr ⟨r, c, evs, rfl, mainTrace_rendered _ _ _ _ _ hevs⟩

/-! Claim theorems. -/

/-- C10: for every input line, including the empty line, splitting on
comma yields at least one token, so the `parts[0]` variant test never
raises `IndexError` in the wait loop or the main loop. -/
theorem first_token_always_safe :
    (∀ line : List Char, 1 ≤ (pySplit (pyStrip line)).length) ∧
    pySplit [] = [[]] ∧
    (∀ line : List Char,
      pyIdx (pySplit (pyStrip line)) 0 ≠ .error PyErr.indexError) := by
  refine ⟨?_, by decide, ?_⟩
  · intro line
    exact List.length_pos.mpr (pySplit_ne_nil (pyStrip line))
  · intro line
    rw [pyIdx_zero_of_ne_nil _ (pySplit_ne_nil _)]
    simp

/-- C1 (code bug evidence): with grid 2 x 3, a frame line with exactly
rows*cols+2 = 8 tokens is rendered and one with fewer tokens is
silently discarded, but a frame line with 9 tokens passes the `>=`
length guard of line 45 and then `reshape` raises `ValueError`,
crashing the process instead of the silent discard the claim states. -/
theorem overlength_frame_crashes :
    programDisplay ["CFG,2,3".toList, "F,100,1,2,3,4,5,6".toList] =
      .ok (some [[1, 2, 3], [4, 5, 6]]) ∧
    programDisplay ["CFG,2,3".toList, "F,100,1,2,3,4,5".toList] =
      .ok (some [[0, 0, 0], [0, 0, 0]]) ∧
    programDisplay ["CFG,2,3".toList, "F,100,1,2,3,4,5,6,7".toList] =
      .error PyErr.valueError := by decide

/-- C2 counterexample: processing the single line "CFG,x,3" raises an
uncaught `ValueError` from `int("x")`, so processing a line can raise
an error, contrary to the claim. -/
theorem malformed_line_raises :
    programTrace ["CFG,x,3".toList] = .error PyErr.valueError := by decide

/-- C2 (amended): lines failing the variant or length checks are
silently ignored with no state change (wait loop: first token not
"CFG"; main loop: empty line, wrong first token, or fewer than
rows*cols+2 tokens), but a CFG line with missing or non-integer
dimension tokens, or an F line passing the guard with a non-integer
sample token, raises an uncaught exception. -/
theorem malformed_handling (rows cols : Nat) (d : List (List Int))
    (line wline : List Char)
    (hline : (pySplit (pyStrip line)).headD [] ≠ "F".toList ∨
      (pySplit (pyStrip line)).length < 2 + rows * cols)
    (hw : (pySplit (pyStrip wline)).headD [] ≠ "CFG".toList) :
    mainStep rows cols d line = .ok (d, false) ∧
    waitStep wline = .ok none ∧
    waitStep ("CFG,x,3".toList) = .error PyErr.valueError ∧
    waitStep ("CFG".toList) = .error PyErr.indexError ∧
    mainStep 2 3 d ("F,100,a,2,3,4,5,6".toList) =
      .error PyErr.valueError := by
  refine ⟨?_, waitStep_not_cfg _ hw, by decide, by decide, ?_⟩
  · unfold mainStep
    split
    · rfl
    · rw [frameTokens_ignored rows cols _ (pySplit_ne_nil _) hline]
  · have hft : frameTokens 2 3
        (pySplit (pyStrip ("F,100,a,2,3,4,5,6".toList))) =
        .error PyErr.valueError := by decide
    unfold mainStep
    rw [if_neg (by decide), hft]

/-- Witness for `malformed_handling`: grid 2 x 3, all-zero display,
main-loop line "G,1,2" and wait-loop line "F,1,2". -/
theorem malformed_handling_witness :
    mainStep 2 3 [[0, 0, 0], [0, 0, 0]] ("G,1,2".toList) =
      .ok ([[0, 0, 0], [0, 0, 0]], false) ∧
    waitStep ("F,1,2".toList) = .ok none ∧
    waitStep ("CFG,x,3".toList) = .error PyErr.valueError ∧
    waitStep ("CFG".toList) = .error PyErr.indexError ∧
    mainStep 2 3 [[0, 0, 0], [0, 0, 0]] ("F,100,a,2,3,4,5,6".toList) =
      .error PyErr.valueError :=
  malformed_handling 2 3 [[0, 0, 0], [0, 0, 0]] ("G,1,2".toList)
    ("F,1,2".toList) (Or.inl (by decide)) (by decide)

/-- C3: after "CFG,2,3" the frame line "F,100,1,2,3,4,5,6" displays the
matrix [[1,2,3],[4,5,6]]; in general an accepted frame is reshaped
row-major, entry (i, j) being sample i*cols+j (stated for samples in
the signed 32-bit range, which the `dtype=np.int32` cast of line 47
leaves unchanged). -/
theorem reshape_row_major (rows cols : Nat) (parts : List (List Char))
    (f : List (List Int)) (vs : List Int)
    (hvs : parseInts (parts.drop 2) = .ok vs)
    (hacc : frameTokens rows cols parts = .ok (some f))
    (hrange : ∀ v ∈ vs, -(2 ^ 31) ≤ v ∧ v < 2 ^ 31)
    (i j : Nat) (hi : i < rows) (hj : j < cols) :
    (f.getD i []).getD j 0 = vs.getD (i * cols + j) 0 ∧
    programDisplay ["CFG,2,3".toList, "F,100,1,2,3,4,5,6".toList] =
      .ok (some [[1, 2, 3], [4, 5, 6]]) := by
  refine ⟨?_, by decide⟩
  obtain ⟨hp, hlen, vs', hvs', hre⟩ := frameTokens_some_inv _ _ _ _ hacc
  rw [hvs] at hvs'
  cases hvs'
  have hlv : vs.length = rows * cols := by
    have hd := (reshape_dims _ _ _ _ hre).1
    simpa using hd
  have hk : i * cols + j < vs.length := by
    rw [hlv]
    exact index_lt i j rows cols hi hj
  rw [reshape_entry _ _ _ _ hre i j hi hj]
  rw [List.getD_eq_getElem?_getD, List.getElem?_map,
    List.getD_eq_getElem?_getD, List.getElem?_eq_getElem hk]
  simp only [Option.map_some, Option.getD_some]
  exact toInt32_eq_self _ (hrange _ (List.getElem_mem hk)).1
    (hrange _ (List.getElem_mem hk)).2

/-- Witness for `reshape_row_major`: the spec's own example frame at
grid 2 x 3, checked at entry (1, 2). -/
theorem reshape_row_major_witness :
    (([[1, 2, 3], [4, 5, 6]] : List (List Int)).getD 1 []).getD 2 0 =
      ([1, 2, 3, 4, 5, 6] : List Int).getD (1 * 3 + 2) 0 ∧
    programDisplay ["CFG,2,3".toList, "F,100,1,2,3,4,5,6".toList] =
      .ok (some [[1, 2, 3], [4, 5, 6]]) :=
  reshape_row_major 2 3 (pySplit ("F,100,1,2,3,4,5,6".toList))
    [[1, 2, 3], [4, 5, 6]] [1, 2, 3, 4, 5, 6] (by decide) (by decide)
    (by decide) 1 2 (by decide) (by decide)

/-- C4 counterexample: with grid 2 x 3 the frame line
"F,xyz,1,2,3,4,5,6" has a non-integer timestamp token yet is accepted
and rendered, so the decoder does not parse the timestamp as an
integer. -/
theorem timestamp_not_parsed :
    pyInt? ("xyz".toList) = none ∧
    programDisplay ["CFG,2,3".toList, "F,xyz,1,2,3,4,5,6".toList] =
      .ok (some [[1, 2, 3], [4, 5, 6]]) := by decide

/-- C4 (amended): the main loop never parses the timestamp token
`parts[1]`: the handling of a frame line is unchanged when the second
token is replaced by any other token. -/
theorem timestamp_ignored (rows cols : Nat) (t0 t t' : List Char)
    (rest : List (List Char)) :
    frameTokens rows cols (t0 :: t :: rest) =
      frameTokens rows cols (t0 :: t' :: rest) := rfl

/-- C5: the grid configuration is set exactly once: a successful trace
has at most one configured event; a further "CFG" line in the main loop
leaves the display unchanged and renders nothing; and every accepted
frame carries exactly rows*cols samples, reshaped to a rows x cols
matrix. -/
theorem config_immutable (lines : List (List Char)) (tr : List Event)
    (rows cols : Nat) (d : List (List Int)) (cline : List Char)
    (parts : List (List Char)) (f : List (List Int))
    (htr : programTrace lines = .ok tr)
    (hcl : (pySplit (pyStrip cline)).headD [] = "CFG".toList)
    (hacc : frameTokens rows cols parts = .ok (some f)) :
    tr.countP (fun e => match e with
      | Event.configured _ _ => true
      | _ => false) ≤ 1 ∧
    mainStep rows cols d cline = .ok (d, false) ∧
    (∃ vs, parseInts (parts.drop 2) = .ok vs ∧ vs.length = rows * cols) ∧
    f.length = rows ∧ (∀ row ∈ f, row.length = cols) := by
  refine ⟨?_, ?_, ?_, ?_, ?_⟩
  · rcases programTrace_shape _ _ htr with rfl | ⟨r, c, evs, rfl, hrend⟩
    · simp
    · rw [List.countP_cons_of_pos _ _ (by rfl)]
      have hz : evs.countP (fun e => match e with
          | Event.configured _ _ => true
          | _ => false) = 0 := by
        rw [List.countP_eq_zero]
        intro e he
        obtain ⟨g, rfl⟩ := hrend e he
        simp
      omega
  · unfold mainStep
    split
    · rfl
    · rw [frameTokens_ignored rows cols _ (pySplit_ne_nil _)
        (Or.inl (by rw [hcl]; decide))]
  · obtain ⟨hp, hlen, vs, hvs, hre⟩ := frameTokens_some_inv _ _ _ _ hacc
    refine ⟨vs, hvs, ?_⟩
    have hd := (reshape_dims _ _ _ _ hre).1
    simpa using hd
  · obtain ⟨hp, hlen, vs, hvs, hre⟩ := frameTokens_some_inv _ _ _ _ hacc
    exact (reshape_dims _ _ _ _ hre).2.1
  · obtain ⟨hp, hlen, vs, hvs, hre⟩ := frameTokens_some_inv _ _ _ _ hacc
    exact (reshape_dims _ _ _ _ hre).2.2

/-- Witness for `config_immutable`: the spec's example input, a later
"CFG,4,5" line fed to the configured main loop, and an accepted frame
with samples 9,8,7,6,5,4. -/
theorem config_immutable_witness :
    ([Event.configured 2 3,
      Event.rendered [[1, 2, 3], [4, 5, 6]]] : List Event).countP
        (fun e => match e with
          | Event.configured _ _ => true
          | _ => false) ≤ 1 ∧
    mainStep 2 3 [[1, 2, 3], [4, 5, 6]] ("CFG,4,5".toList) =
      .ok ([[1, 2, 3], [4, 5, 6]], false) ∧
    (∃ vs, parseInts ((pySplit ("F,0,9,8,7,6,5,4".toList)).drop 2) =
      .ok vs ∧ vs.length = 2 * 3) ∧
    ([[9, 8, 7], [6, 5, 4]] : List (List Int)).length = 2 ∧
    (∀ row ∈ ([[9, 8, 7], [6, 5, 4]] : List (List Int)), row.length = 3) :=
  config_immutable ["CFG,2,3".toList, "F,100,1,2,3,4,5,6".toList]
    [Event.configured 2 3, Event.rendered [[1, 2, 3], [4, 5, 6]]]
    2 3 [[1, 2, 3], [4, 5, 6]] ("CFG,4,5".toList)
    (pySplit ("F,0,9,8,7,6,5,4".toList)) [[9, 8, 7], [6, 5, 4]]
    (by decide) (by decide) (by decide)

/-- C6: a line splitting as "CFG", t1, t2, ... with t1 and t2 parsing
as the integers r and c configures the grid with rows = r and cols = c,
and the wait loop stops at the first such line, consuming no further
input. -/
theorem cfg_configures (line t1 t2 : List Char) (ts rest : List (List Char))
    (r c : Int)
    (hsplit : pySplit (pyStrip line) = "CFG".toList :: t1 :: t2 :: ts)
    (hr : pyInt? t1 = some r) (hc : pyInt? t2 = some c) :
    waitStep line = .ok (some (r, c)) ∧
    waitRun (line :: rest) = .ok (some ((r, c), rest)) := by
  have hws : waitStep line = .ok (some (r, c)) := by
    unfold waitStep
    rw [hsplit]
    simp [pyIdx, hr, hc]
  refine ⟨hws, ?_⟩
  unfold waitRun
  rw [hws]

/-- Witness for `cfg_configures`: the line "CFG,2,3" followed by one
more line, which the wait loop leaves unconsumed. -/
theorem cfg_configures_witness :
    waitStep ("CFG,2,3".toList) = .ok (some (2, 3)) ∧
    waitRun ["CFG,2,3".toList, "F,9".toList] =
      .ok (some ((2, 3), ["F,9".toList])) :=
  cfg_configures ("CFG,2,3".toList) ("2".toList) ("3".toList) []
    ["F,9".toList] 2 3 (by decide) (by decide) (by decide)

theorem getLast?_eq_getLastD {α : Type} (l : List α) :
    ∀ d, l ≠ [] → l.getLast? = some (l.getLastD d) := by
  induction l with
  | nil => intro d h; exact absurd rfl h
  | cons a t ih =>
      intro d _
      cases t with
      | nil => rfl
      | cons b u =>
          rw [List.getLastD_cons, List.getLast?_cons_cons]
          exact ih a (by simp)

/-- C7: latest frame wins: when the main loop runs without error over a
sequence containing at least one accepted frame, the final display is
the reshaped samples of the last accepted frame no matter what the
display held before, and each accepted frame overwrites the display and
triggers a redraw independently of the previous display. -/
theorem latest_frame_wins (rows cols : Nat) (d d' : List (List Int))
    (ls : List (List Char))
    (hrun : mainRun rows cols d ls = .ok d')
    (hne : acceptedFrames rows cols ls ≠ []) :
    (acceptedFrames rows cols ls).getLast? = some d' ∧
    ∀ l f d0, acceptOf rows cols l = some f →
      mainStep rows cols d0 l = .ok (f, true) := by
  refine ⟨?_, fun l f d0 h => acceptOf_mainStep rows cols l f h d0⟩
  have h1 := mainRun_getLastD rows cols ls d d' hrun
  rw [getLast?_eq_getLastD (acceptedFrames rows cols ls) d hne, h1]

/-- Witness for `latest_frame_wins`: grid 2 x 3, two accepted frames
with a junk line between them; the second frame is the one displayed. -/
theorem latest_frame_wins_witness :
    (acceptedFrames 2 3 ["F,100,1,2,3,4,5,6".toList, "junk".toList,
        "F,101,6,5,4,3,2,1".toList]).getLast? =
      some [[6, 5, 4], [3, 2, 1]] ∧
    ∀ l f d0, acceptOf 2 3 l = some f →
      mainStep 2 3 d0 l = .ok (f, true) :=
  latest_frame_wins 2 3 [[0, 0, 0], [0, 0, 0]] [[6, 5, 4], [3, 2, 1]]
    ["F,100,1,2,3,4,5,6".toList, "junk".toList, "F,101,6,5,4,3,2,1".toList]
    (by decide) (by decide)

/-- C8: no frame is rendered before a configuration exists: in any
successful trace every rendered event is preceded by the configured
event standing at the head of the trace, and while still waiting any
line whose first token is "F" is discarded by the wait loop. -/
theorem no_render_before_config (lines : List (List Char)) (tr : List Event)
    (htr : programTrace lines = .ok tr) :
    (∀ f, Event.rendered f ∈ tr →
      ∃ r c evs, tr = Event.configured r c :: evs) ∧
    ∀ line, (pySplit (pyStrip line)).headD [] = "F".toList →
      waitStep line = .ok none := by
  constructor
  · intro f hf
    rcases programTrace_shape _ _ htr with rfl | ⟨r, c, evs, rfl, _⟩
    · cases hf
    · exact ⟨r, c, evs, rfl⟩
  · intro line hl
    apply waitStep_not_cfg
    rw [hl]
    decide

/-- Witness for `no_render_before_config`: an "F" line arrives before
"CFG,2,3"; the resulting trace starts with the configured event. -/
theorem no_render_before_config_witness :
    (∀ f, Event.rendered f ∈ ([Event.configured 2 3,
        Event.rendered [[1, 2, 3], [4, 5, 6]]] : List Event) →
      ∃ r c evs, ([Event.configured 2 3,
        Event.rendered [[1, 2, 3], [4, 5, 6]]] : List Event) =
          Event.configured r c :: evs) ∧
    ∀ line, (pySplit (pyStrip line)).headD [] = "F".toList →
      waitStep line = .ok none :=
  no_render_before_config
    ["F,1,2".toList, "CFG,2,3".toList, "F,100,1,2,3,4,5,6".toList]
    [Event.configured 2 3, Event.rendered [[1, 2, 3], [4, 5, 6]]]
    (by decide)

/-- C9: sample values are not validated numerically: an "F" line with
the correct token count whose sample tokens parse as integers is
accepted and rendered whatever the values, negative or above 1023
included; the only range handling is the fixed colour scale vmin = 0,
vmax = 1023 of lines 27-28. -/
theorem samples_not_validated (rows cols : Nat) (parts : List (List Char))
    (vs : List Int)
    (hp : parts.headD [] = "F".toList)
    (hlen : parts.length = 2 + rows * cols)
    (hvs : parseInts (parts.drop 2) = .ok vs) :
    (∃ f, frameTokens rows cols parts = .ok (some f)) ∧
      vmax = 1023 ∧ vmin = 0 :=
  ⟨⟨_, frameTokens_accepts rows cols parts vs hp hlen hvs⟩, rfl, rfl⟩

/-- Witness for `samples_not_validated`: a frame whose samples include
a negative value and values above the 1023 display ceiling. -/
theorem samples_not_validated_witness :
    (∃ f, frameTokens 2 3 (pySplit ("F,100,-5,5000,0,1024,7,-1".toList)) =
      .ok (some f)) ∧ vmax = 1023 ∧ vmin = 0 :=
  samples_not_validated 2 3 (pySplit ("F,100,-5,5000,0,1024,7,-1".toList))
    [-5, 5000, 0, 1024, 7, -1] (by decide) (by decide) (by decide)

end LiveHeatmap
